import Mathlib

/-
Verification of the contact-store component of `Contact_Book.py`
(class `ContactManager`).

Strings are embedded as `List Char` (Python `str`); the in-memory
collection `self.contacts` is a `List Contact`.  File persistence is
modelled by a boolean `saveOk` outcome passed to the operations that
branch on `save_contacts()`'s result; JSON serialization of the record
list is modelled as the identity on records (a list of string-valued
records round-trips through `json.dump`/`json.load` unchanged).
-/

namespace ContactBook

/-- Python `name.lower()` for the ASCII names handled by the program:
character-wise lowering. -/
def lowerStr (s : List Char) : List Char := s.map Char.toLower

/-- Embeds `ContactManager.validate_phone` (Contact_Book.py:31-48).
`re.sub(r'\D', '', phone)` keeps exactly the digit characters; a digit
count outside `[10,15]` is an error (`none`); exactly 10 digits are
formatted `(XXX) XXX-XXXX` from the slices `digits[:3]`, `digits[3:6]`,
`digits[6:]`; 11-15 digits are formatted
`+{digits[:n-10]}-{digits[-10:-7]}-{digits[-7:-4]}-{digits[-4:]}`. -/
def validate_phone (phone : List Char) : Option (List Char) :=
  let digits := phone.filter Char.isDigit
  if digits.length < 10 ∨ 15 < digits.length then
    none
  else if digits.length = 10 then
    some ('(' :: digits.take 3 ++ ')' :: ' ' ::
      ((digits.drop 3).take 3 ++ '-' :: digits.drop 6))
  else
    some ('+' :: digits.take (digits.length - 10) ++ '-' ::
      ((digits.drop (digits.length - 10)).take 3 ++ '-' ::
        ((digits.drop (digits.length - 7)).take 3 ++ '-' ::
          digits.drop (digits.length - 4))))

/-- A display pattern such as `(XXX) XXX-XXXX`: `X` stands for one digit
character, every other pattern character stands for itself. -/
def matchesMask : List Char → List Char → Bool
  | [], [] => true
  | p :: ps, c :: cs =>
    (if p = 'X' then c.isDigit else decide (c = p)) && matchesMask ps cs
  | _, _ => false

/-- Character class `[a-zA-Z0-9._%+-]` of the email regex's local part. -/
def isLocalChar (c : Char) : Bool :=
  c.isAlphanum || c = '.' || c = '_' || c = '%' || c = '+' || c = '-'

/-- Character class `[a-zA-Z0-9.-]` of the email regex's domain part. -/
def isDomainChar (c : Char) : Bool :=
  c.isAlphanum || c = '.' || c = '-'

/-- Embeds the regex test of `ContactManager.validate_email`
(Contact_Book.py:24-29): the pattern
`^[a-zA-Z0-9._%+-]+@[a-zA-Z0-9.-]+\.[a-zA-Z]{2,}$` matches `e` iff `e`
decomposes as `local ++ '@' :: dom ++ '.' :: tld` with nonempty `local`
over the local class, nonempty `dom` over the domain class, and `tld`
of length at least 2 over `[a-zA-Z]`.  The decomposition is searched by
the positions `i` of the `'@'` and `j` of the separating `'.'`. -/
def emailMatches (e : List Char) : Bool :=
  (List.range e.length).any (fun i =>
    (List.range e.length).any (fun j =>
      decide (0 < i) && decide (i < j) &&
      (e.take i).all isLocalChar &&
      decide ((e.drop i).take 1 = ['@']) &&
      decide (0 < j - (i + 1)) &&
      ((e.drop (i + 1)).take (j - (i + 1))).all isDomainChar &&
      decide ((e.drop j).take 1 = ['.']) &&
      (e.drop (j + 1)).all Char.isAlpha &&
      decide (2 ≤ e.length - (j + 1))))

/-- `ContactManager.validate_email`: the empty email is accepted
(optional field), otherwise the regex must match. -/
def validate_email (email : List Char) : Bool :=
  if email = [] then true else emailMatches email

/-- One contact record, a dict with the keys written by `add_contact`
(Contact_Book.py:127-134).  Optional keys absent in a dict are read back
by the program with default `''` (email, address) so they are embedded
as possibly-empty strings. -/
structure Contact where
  name : List Char
  phone : List Char
  email : List Char
  address : List Char
  category : List Char
  created_date : List Char
deriving DecidableEq

/-- The distinct error exits of `add_contact` (each is an early `return`
with a distinct message). -/
inductive AddErr where
  | emptyName
  | emptyPhone
  | invalidPhone
  | invalidEmail
  | dupName
  | dupPhone
deriving DecidableEq

/-- The duplicate-scan loop of `add_contact` (Contact_Book.py:118-124):
for each existing contact, in order, a case-insensitive name match is
reported before a phone match. -/
def findDup (contacts : List Contact) (name fp : List Char) : Option AddErr :=
  match contacts with
  | [] => none
  | c :: cs =>
    if lowerStr c.name = lowerStr name then some AddErr.dupName
    else if c.phone = fp then some AddErr.dupPhone
    else findDup cs name fp

/-- Embeds `ContactManager.add_contact` (Contact_Book.py:83-143) on the
already-stripped inputs: empty-name and empty-phone checks, phone
validation, email validation (empty permitted), category defaulting to
`"Other"`, the duplicate scan, and on success the append of the new
record (the in-memory append is kept even if the save fails).  Returns
the resulting collection together with the error, if any. -/
def add_contact (contacts : List Contact)
    (name phoneInput email address category now : List Char) :
    List Contact × Option AddErr :=
  if name = [] then (contacts, some AddErr.emptyName)
  else if phoneInput = [] then (contacts, some AddErr.emptyPhone)
  else
    match validate_phone phoneInput with
    | none => (contacts, some AddErr.invalidPhone)
    | some fp =>
      if email ≠ [] ∧ validate_email email = false then
        (contacts, some AddErr.invalidEmail)
      else
        match findDup contacts name fp with
        | some err => (contacts, some err)
        | none =>
          let cat := if category = [] then "Other".data else category
          (contacts ++ [⟨name, fp, email, address, cat, now⟩], none)

/-- Outcomes of `update_contact`: bad index, early return on phone
validation failure, early return on email validation failure, or
completion. -/
inductive UpdateResult where
  | notFound
  | phoneError
  | emailError
  | ok
deriving DecidableEq

/-- Tail of `update_contact` after the email step: address and category
are overwritten when the corresponding input is nonempty, then the
function completes (Contact_Book.py:328-343). -/
def finishUpdate (contacts : List Contact) (choice : Nat) (c3 : Contact)
    (newAddress newCategory : List Char) : List Contact × UpdateResult :=
  let c4 := if newAddress ≠ [] then { c3 with address := newAddress } else c3
  let c5 := if newCategory ≠ [] then { c4 with category := newCategory } else c4
  (contacts.set (choice - 1) c5, UpdateResult.ok)

/-- Email step of `update_contact` (Contact_Book.py:319-326): a nonempty
input differing from the current email is validated; failure returns at
once, leaving the earlier in-place name/phone edits committed. -/
def updateEmailStep (contacts : List Contact) (choice : Nat) (c2 : Contact)
    (newEmail newAddress newCategory : List Char) : List Contact × UpdateResult :=
  if newEmail ≠ [] ∧ newEmail ≠ c2.email then
    if validate_email newEmail = false then
      (contacts.set (choice - 1) c2, UpdateResult.emailError)
    else finishUpdate contacts choice { c2 with email := newEmail } newAddress newCategory
  else finishUpdate contacts choice c2 newAddress newCategory

/-- Embeds `ContactManager.update_contact` (Contact_Book.py:285-351) on
the already-stripped inputs.  The Python code mutates the selected dict
in place field by field, so an early error return leaves the edits made
before the failing validation visible in the collection: the name edit
survives a phone failure, and the name and phone edits survive an email
failure.  Blank inputs keep the current values. -/
def update_contact (contacts : List Contact) (choice : Nat)
    (newName newPhone newEmail newAddress newCategory : List Char) :
    List Contact × UpdateResult :=
  if h : 1 ≤ choice ∧ choice ≤ contacts.length then
    let c0 := contacts.get ⟨choice - 1, by omega⟩
    let c1 := if newName ≠ [] then { c0 with name := newName } else c0
    if newPhone ≠ [] then
      match validate_phone newPhone with
      | none => (contacts.set (choice - 1) c1, UpdateResult.phoneError)
      | some fp =>
        updateEmailStep contacts choice { c1 with phone := fp }
          newEmail newAddress newCategory
    else updateEmailStep contacts choice c1 newEmail newAddress newCategory
  else (contacts, UpdateResult.notFound)

/-- Embeds `ContactManager.delete_contact` (Contact_Book.py:353-394) at
a confirmed deletion: the record at the 1-based `choice` is popped; when
the save fails it is re-inserted at its original position
(Contact_Book.py:379-385). -/
def delete_contact (contacts : List Contact) (choice : Nat) (saveOk : Bool) :
    List Contact :=
  if h : 1 ≤ choice ∧ choice ≤ contacts.length then
    let deleted := contacts.get ⟨choice - 1, by omega⟩
    let rest := contacts.eraseIdx (choice - 1)
    if saveOk then rest else rest.insertIdx (choice - 1) deleted
  else contacts

/-- An import candidate: a parsed JSON/CSV row with the fields read by
the import loop.  `category` and `created_date` may be missing
(Contact_Book.py:501-504 fills the defaults). -/
structure ImportCand where
  name : List Char
  phone : List Char
  email : List Char
  address : List Char
  category : Option (List Char)
  created_date : Option (List Char)
deriving DecidableEq

/-- Fills the defaults of `import_contacts` into a candidate: missing
category becomes `"Other"`, missing creation time becomes `now`
(Contact_Book.py:500-504). -/
def fixCand (now : List Char) (cand : ImportCand) : Contact :=
  { name := cand.name, phone := cand.phone, email := cand.email,
    address := cand.address,
    category := cand.category.getD "Other".data,
    created_date := cand.created_date.getD now }

/-- The serialized form of a full record, as written by the JSON export:
every key present. -/
def toCand (c : Contact) : ImportCand :=
  { name := c.name, phone := c.phone, email := c.email,
    address := c.address,
    category := some c.category, created_date := some c.created_date }

/-- Embeds `ContactManager.export_contacts` in its JSON branch
(Contact_Book.py:445-448): `json.dump` of the collection writes each
record with all its keys; the file's parsed content is the corresponding
candidate list. -/
def export_contacts_json (contacts : List Contact) : List ImportCand :=
  contacts.map toCand

/-- One iteration of the import loop (Contact_Book.py:490-509) on the
state (collection, importedCount, skippedCount): the candidate is
skipped iff some contact of the current collection matches it by
case-insensitive name or by exact phone string; otherwise it is appended
with the defaults filled. -/
def importStep (now : List Char) (st : List Contact × Nat × Nat)
    (cand : ImportCand) : List Contact × Nat × Nat :=
  if st.1.any (fun e =>
      decide (lowerStr e.name = lowerStr cand.name) ||
      decide (e.phone = cand.phone)) then
    (st.1, st.2.1, st.2.2 + 1)
  else
    (st.1 ++ [fixCand now cand], st.2.1 + 1, st.2.2)

/-- Embeds `ContactManager.import_contacts` (Contact_Book.py:459-519) on
an already-parsed candidate list: the loop threads the growing
collection and the two counters; `now` is the creation time filled into
candidates missing one. -/
def import_contacts (contacts : List Contact) (cands : List ImportCand)
    (now : List Char) : List Contact × Nat × Nat :=
  cands.foldl (importStep now) (contacts, 0, 0)

/-- A backup file as seen by `cleanup_old_backups`: its name and its
modification time (`os.path.getmtime`). -/
structure BackupFile where
  name : List Char
  mtime : Nat
deriving DecidableEq

/-- Embeds `ContactManager.cleanup_old_backups` (Contact_Book.py:597-620)
at a confirmed cleanup, returning (kept, deleted): with at most 5 backup
files nothing happens; otherwise the files are sorted by modification
time descending and everything beyond the newest 5 is deleted. -/
def cleanup_old_backups (files : List BackupFile) :
    List BackupFile × List BackupFile :=
  if files.length ≤ 5 then (files, [])
  else
    let sorted := files.mergeSort (fun a b => decide (b.mtime ≤ a.mtime))
    (sorted.take 5, sorted.drop 5)

/-- `total_pages` of the pagination in `view_contacts`
(Contact_Book.py:176): `(total + per_page - 1) // per_page`. -/
def total_pages (total per_page : Nat) : Nat := (total + per_page - 1) / per_page

/-- The pages displayed by `view_contacts` (Contact_Book.py:174-192):
page `p` (1-based) shows the window from `start_idx = (p-1)*per_page` to
`end_idx = min(start_idx + per_page, total)`; here page `k+1` is
`(contacts.drop (k * per_page)).take per_page`. -/
def paginate (contacts : List α) (per_page : Nat) : List (List α) :=
  (List.range (total_pages contacts.length per_page)).map
    (fun k => (contacts.drop (k * per_page)).take per_page)

/-- Embeds `ContactManager.restore_from_backup` (Contact_Book.py:560-595)
at a confirmed restore of a backup whose parsed contents are
`backupContents`: the assignment `self.contacts = json.load(file)`
replaces the whole collection before `save_contacts()` runs, and no
branch restores the previous collection when the save fails; the save's
outcome is only reported. -/
def restore_from_backup (contacts backupContents : List Contact)
    (saveOk : Bool) : List Contact × Bool :=
  (backupContents, saveOk)

/-- The store invariant of the spec's data model: no two records share a
case-insensitive name and no two records share a (normalized, as stored)
phone string. -/
def uniqueStore (contacts : List Contact) : Prop :=
  contacts.Pairwise (fun a b => lowerStr a.name ≠ lowerStr b.name ∧ a.phone ≠ b.phone)

instance : DecidablePred uniqueStore := fun l =>
  inferInstanceAs (Decidable (l.Pairwise _))

/-- A concrete record used in witnesses and counterexamples. -/
def alice : Contact :=
  ⟨"Alice".data, "(555) 123-4567".data, [], [], "Other".data, "2024-01-01".data⟩

/-- A second concrete record, with a distinct name and phone. -/
def bob : Contact :=
  ⟨"Bob".data, "(555) 999-8888".data, [], [], "Other".data, "2024-01-02".data⟩

/-- The import candidate of the spec's import scenario: name `alice`,
phone `555-123-4567`. -/
def aliceCand : ImportCand :=
  ⟨"alice".data, "555-123-4567".data, [], [], none, none⟩

/- ======================  Theorems  ====================== -/

/-- Re-inserting the element removed at `i` at its original position
restores the list. -/
theorem insertIdx_eraseIdx_self {α : Type _} :
    ∀ (l : List α) (i : Nat) (h : i < l.length),
      (l.eraseIdx i).insertIdx i (l.get ⟨i, h⟩) = l
  | _ :: _, 0, _ => rfl
  | a :: t, i + 1, h => by
    have ih := insertIdx_eraseIdx_self t i (by simpa using h)
    simpa [List.eraseIdx_cons_succ, List.insertIdx_succ_cons] using
      congrArg (List.cons a) ih

/-- Writing back the element already at `i` leaves the list unchanged. -/
theorem set_get_self {α : Type _} :
    ∀ (l : List α) (i : Nat) (h : i < l.length), l.set i (l.get ⟨i, h⟩) = l
  | _ :: _, 0, _ => rfl
  | a :: t, i + 1, h => by
    have ih := set_get_self t i (by simpa using h)
    simpa using congrArg (List.cons a) ih

/-- Shared helper: on a valid index, a delete whose save fails restores
the original collection. -/
theorem delete_save_failure_eq (contacts : List Contact)
    (choice : Nat) (h : 1 ≤ choice ∧ choice ≤ contacts.length) :
    delete_contact contacts choice false = contacts := by
  unfold delete_contact
  rw [dif_pos h]
  simp only [Bool.false_eq_true, if_false]
  exact insertIdx_eraseIdx_self contacts (choice - 1) (by omega)

/-- C3.  Delete is atomic under save failure: for every store and valid
1-based index, deleting when the save fails leaves the collection equal,
by value and order, to its pre-delete state (the popped record is
re-inserted at its original position). -/
theorem delete_contact_save_failure_rollback (contacts : List Contact)
    (choice : Nat) (h : 1 ≤ choice ∧ choice ≤ contacts.length) :
    delete_contact contacts choice false = contacts :=
  delete_save_failure_eq contacts choice h

/-- Witness for C3 at a concrete two-record store. -/
theorem delete_contact_save_failure_rollback_witness :
    delete_contact [alice, bob] 1 false = [alice, bob] :=
  delete_contact_save_failure_rollback [alice, bob] 1 (by decide)

/-- C10.  Restore is not rolled back on save failure: the in-memory
collection is replaced by the backup contents before the save is
attempted, so after a failed save it holds the backup contents, not the
pre-restore records. -/
theorem restore_from_backup_keeps_backup (contacts backup : List Contact)
    (h : contacts ≠ backup) :
    (∀ saveOk, (restore_from_backup contacts backup saveOk).1 = backup) ∧
    (restore_from_backup contacts backup false).1 ≠ contacts :=
  ⟨fun _ => rfl, fun hc => h hc.symm⟩

/-- Witness for C10: restoring an empty backup over a nonempty store. -/
theorem restore_from_backup_keeps_backup_witness :
    (∀ saveOk, (restore_from_backup [alice] [] saveOk).1 = []) ∧
    (restore_from_backup [alice] [] false).1 ≠ [alice] :=
  restore_from_backup_keeps_backup [alice] [] (by decide)

/-- The comparison used to sort backups (newest first) is transitive. -/
theorem mtimeDesc_trans (a b c : BackupFile)
    (hab : decide (b.mtime ≤ a.mtime) = true)
    (hbc : decide (c.mtime ≤ b.mtime) = true) :
    decide (c.mtime ≤ a.mtime) = true := by
  simp only [decide_eq_true_eq] at *
  omega

/-- The comparison used to sort backups is total. -/
theorem mtimeDesc_total (a b : BackupFile) :
    (decide (b.mtime ≤ a.mtime) || decide (a.mtime ≤ b.mtime)) = true := by
  rcases Nat.le_total a.mtime b.mtime with h | h <;> simp [h]

/-- C7.  Backup pruning retention with `keep = 5`: pruning keeps exactly
`min existingCount 5` files, is a no-op when at most 5 backups exist,
never deletes a file newer than a retained one, and deletes exactly the
files beyond the newest 5 (kept and deleted together are a permutation
of the original file set). -/
theorem cleanup_old_backups_spec (files : List BackupFile) :
    (cleanup_old_backups files).1.length = min files.length 5 ∧
    (files.length ≤ 5 → cleanup_old_backups files = (files, [])) ∧
    (∀ d ∈ (cleanup_old_backups files).2, ∀ k ∈ (cleanup_old_backups files).1,
      d.mtime ≤ k.mtime) ∧
    ((cleanup_old_backups files).1 ++ (cleanup_old_backups files).2).Perm files := by
  by_cases h : files.length ≤ 5
  · refine ⟨?_, fun _ => ?_, ?_, ?_⟩ <;>
      simp [cleanup_old_backups, h, Nat.min_eq_left]
  · have hsorted := @List.sorted_mergeSort BackupFile
      (fun a b => decide (b.mtime ≤ a.mtime)) mtimeDesc_trans mtimeDesc_total files
    set sorted := files.mergeSort (fun a b => decide (b.mtime ≤ a.mtime)) with hs
    have hsplit : sorted.take 5 ++ sorted.drop 5 = sorted := List.take_append_drop 5 sorted
    have hpair : ∀ a ∈ sorted.take 5, ∀ b ∈ sorted.drop 5,
        decide (b.mtime ≤ a.mtime) = true := by
      rw [← hsplit] at hsorted
      exact (List.pairwise_append.mp hsorted).2.2
    have hres : cleanup_old_backups files = (sorted.take 5, sorted.drop 5) := by
      simp [cleanup_old_backups, h, hs]
    refine ⟨?_, fun hc => absurd hc h, ?_, ?_⟩
    · rw [hres]
      simp only [List.length_take, hs, List.length_mergeSort]
      omega
    · rw [hres]
      intro d hd k hk
      simpa using hpair k hk d hd
    · rw [hres]
      simp only [hsplit]
      exact List.mergeSort_perm files _


/-- Witness for C7: with a single backup file the pruning is a no-op. -/
theorem cleanup_old_backups_spec_witness :
    cleanup_old_backups [⟨"contacts_backup_20240101_000000.json".data, 1⟩] =
      ([⟨"contacts_backup_20240101_000000.json".data, 1⟩], []) :=
  (cleanup_old_backups_spec [⟨"contacts_backup_20240101_000000.json".data, 1⟩]).2.1
    (by decide)

/-- Concatenating `n` consecutive windows of width `per` recovers any list
of length at most `n * per`. -/
theorem flatten_windows {α : Type _} (per : Nat) :
    ∀ (n : Nat) (l : List α), l.length ≤ n * per →
      ((List.range n).map (fun k => (l.drop (k * per)).take per)).flatten = l := by
  intro n
  induction n with
  | zero =>
    intro l h
    simp only [Nat.zero_mul, Nat.le_zero, List.length_eq_zero] at h
    simp [h]
  | succ n ih =>
    intro l h
    rw [List.range_succ_eq_map, List.map_cons, List.map_map, List.flatten_cons]
    have hfun : ((fun k => (l.drop (k * per)).take per) ∘ Nat.succ) =
        (fun k => ((l.drop per).drop (k * per)).take per) := by
      funext k
      simp only [Function.comp_apply, List.drop_drop, Nat.succ_mul]
      congr 2
      omega
    rw [hfun, ih (l.drop per) (by rw [Nat.succ_mul] at h; simp only [List.length_drop]; omega)]
    simp

/-- C9.  Pagination: the pages are consecutive windows whose
concatenation is the whole sequence, every page except possibly the last
has exactly `per_page` records and none has more, the page count is the
least `m` with `total ≤ m * per_page` (that is, `ceil(total / per_page)`,
computed as `(total + per_page - 1) / per_page`), and 23 records with
page size 10 give pages of sizes 10, 10, 3. -/
theorem paginate_spec {α : Type _} (l : List α) (per : Nat) (hper : 0 < per) :
    ((paginate l per).length = (l.length + per - 1) / per ∧
      l.length ≤ (paginate l per).length * per ∧
      (∀ m, l.length ≤ m * per → (paginate l per).length ≤ m)) ∧
    (paginate l per).flatten = l ∧
    (∀ pg ∈ (paginate l per).dropLast, pg.length = per) ∧
    (∀ pg ∈ paginate l per, pg.length ≤ per) ∧
    (l.length = 23 → per = 10 → (paginate l per).map List.length = [10, 10, 3]) := by
  have hnp : (paginate l per).length = total_pages l.length per := by
    simp [paginate]
  have hlen : (paginate l per).length = (l.length + per - 1) / per := by
    rw [hnp, total_pages]
  have hge : l.length ≤ (paginate l per).length * per := by
    rw [hlen, Nat.mul_comm]
    have h1 := Nat.div_add_mod (l.length + per - 1) per
    have h2 := Nat.mod_lt (l.length + per - 1) hper
    omega
  refine ⟨⟨hlen, hge, ?_⟩, ?_, ?_, ?_, ?_⟩
  · intro m hm
    rw [hlen, Nat.div_le_iff_le_mul_add_pred hper]
    rw [Nat.mul_comm] at hm
    omega
  · have hge' : l.length ≤ total_pages l.length per * per := by
      rw [← hnp]; exact hge
    unfold paginate
    exact flatten_windows per (total_pages l.length per) l hge'
  · intro pg hpg
    rcases hn : total_pages l.length per with _ | m
    · simp [paginate, hn] at hpg
    · rw [paginate, hn, List.range_succ, List.map_append, List.map_singleton,
        List.dropLast_concat] at hpg
      obtain ⟨k, hk, rfl⟩ := List.mem_map.mp hpg
      rw [List.mem_range] at hk
      have hmper : m * per < l.length := by
        have hdiv : m + 1 ≤ (l.length + per - 1) / per := by
          rw [total_pages] at hn
          omega
        rw [Nat.le_div_iff_mul_le hper] at hdiv
        rw [Nat.add_mul, Nat.one_mul] at hdiv
        omega
      have hkper : (k + 1) * per ≤ m * per := Nat.mul_le_mul_right per hk
      rw [Nat.add_mul, Nat.one_mul] at hkper
      simp only [List.length_take, List.length_drop]
      omega
  · intro pg hpg
    rw [paginate] at hpg
    obtain ⟨k, _, rfl⟩ := List.mem_map.mp hpg
    exact List.length_take_le per _
  · intro h23 h10
    subst h10
    have hn : total_pages l.length 10 = 3 := by rw [total_pages, h23]
    rw [paginate, hn]
    have hr : List.range 3 = [0, 1, 2] := rfl
    rw [hr]
    simp [List.length_take, List.length_drop, h23]

/-- Witness for C9 at a concrete 23-record sequence with page size 10. -/
theorem paginate_spec_witness :
    (paginate (List.range 23) 10).map List.length = [10, 10, 3] :=
  (paginate_spec (List.range 23) 10 (by decide)).2.2.2.2 (by simp) rfl

/-- C8.  Import duplicate skipping: a candidate is skipped (and the
collection left unchanged) exactly when some record of the current
collection matches its name case-insensitively or its phone exactly;
otherwise it is appended with the defaults filled.  Concretely, a store
holding `("Alice", "(555) 123-4567")` importing the one-record file
`("alice", "555-123-4567")` reports importedCount 0, skippedCount 1. -/
theorem import_contacts_skip_iff :
    (∀ (contacts : List Contact) (cand : ImportCand) (now : List Char),
      import_contacts contacts [cand] now =
        if contacts.any (fun e =>
            decide (lowerStr e.name = lowerStr cand.name) ||
            decide (e.phone = cand.phone)) then
          (contacts, 0, 1)
        else (contacts ++ [fixCand now cand], 1, 0)) ∧
    (∀ now, import_contacts [alice] [aliceCand] now = ([alice], 0, 1)) := by
  constructor
  · intro contacts cand now
    by_cases hc : (contacts.any (fun e =>
        decide (lowerStr e.name = lowerStr cand.name) ||
        decide (e.phone = cand.phone))) = true
    · simp [import_contacts, importStep, hc]
    · simp only [Bool.not_eq_true] at hc
      simp [import_contacts, importStep, hc]
  · intro now
    have hc : ([alice].any (fun e =>
        decide (lowerStr e.name = lowerStr aliceCand.name) ||
        decide (e.phone = aliceCand.phone))) = true := by decide
    simp [import_contacts, importStep, hc]

/-- If some existing record matches the new name case-insensitively or
the new formatted phone exactly, the duplicate scan reports a duplicate
error. -/
theorem findDup_eq_some_of_match (contacts : List Contact) (name fp : List Char)
    (h : ∃ c ∈ contacts, lowerStr c.name = lowerStr name ∨ c.phone = fp) :
    ∃ err, findDup contacts name fp = some err ∧
      (err = AddErr.dupName ∨ err = AddErr.dupPhone) := by
  induction contacts with
  | nil => obtain ⟨c, hc, _⟩ := h; cases hc
  | cons c cs ih =>
    by_cases h1 : lowerStr c.name = lowerStr name
    · exact ⟨AddErr.dupName, by simp [findDup, h1], Or.inl rfl⟩
    · by_cases h2 : c.phone = fp
      · exact ⟨AddErr.dupPhone, by simp [findDup, h1, h2], Or.inr rfl⟩
      · obtain ⟨d, hd, hmatch⟩ := h
        rcases List.mem_cons.mp hd with rfl | hd'
        · rcases hmatch with hm | hm
          · exact absurd hm h1
          · exact absurd hm h2
        · obtain ⟨err, he, hor⟩ := ih ⟨d, hd', hmatch⟩
          exact ⟨err, by simp [findDup, h1, h2, he], hor⟩

/-- C5.  Create rejects duplicates: when the validations pass but the
new name equals an existing record's name ignoring case, or the new
normalized phone equals an existing record's phone, `add_contact` fails
with a duplicate error and the collection is unchanged. -/
theorem add_contact_rejects_duplicates (contacts : List Contact)
    (name phoneInput email address category now fp : List Char)
    (hname : name ≠ []) (hpi : phoneInput ≠ [])
    (hphone : validate_phone phoneInput = some fp)
    (hemail : email = [] ∨ validate_email email = true)
    (hdup : ∃ c ∈ contacts, lowerStr c.name = lowerStr name ∨ c.phone = fp) :
    (add_contact contacts name phoneInput email address category now).1 = contacts ∧
    ∃ err,
      (add_contact contacts name phoneInput email address category now).2 = some err ∧
      (err = AddErr.dupName ∨ err = AddErr.dupPhone) := by
  obtain ⟨err, herr, hor⟩ := findDup_eq_some_of_match contacts name fp hdup
  have hem : ¬(email ≠ [] ∧ validate_email email = false) := by
    rcases hemail with h | h <;> simp [h]
  refine ⟨?_, err, ?_, hor⟩ <;>
    simp [add_contact, hname, hpi, hphone, hem, herr]

/-- Witness for C5: adding `ALICE` to a store holding `Alice` (names
differing only in letter case) fails with the duplicate-name error and
leaves the store unchanged. -/
theorem add_contact_rejects_duplicates_witness :
    (add_contact [alice] "ALICE".data "999-888-7777".data [] [] []
      "2024-02-02".data).1 = [alice] ∧
    ∃ err,
      (add_contact [alice] "ALICE".data "999-888-7777".data [] [] []
        "2024-02-02".data).2 = some err ∧
      (err = AddErr.dupName ∨ err = AddErr.dupPhone) :=
  add_contact_rejects_duplicates [alice] "ALICE".data "999-888-7777".data [] [] []
    "2024-02-02".data "(999) 888-7777".data (by decide) (by decide) (by decide)
    (Or.inl rfl) (by decide)

/-- C2 counterexample.  Update is not all-or-nothing: on the one-record
store `[alice]`, updating with new name `Bob` and invalid new phone
`123` aborts with a phone validation error, yet the record's name has
already been changed, so the collection differs from its pre-update
state. -/
theorem update_contact_partial_mutation_cex :
    (update_contact [alice] 1 "Bob".data "123".data [] [] []).2 =
      UpdateResult.phoneError ∧
    (update_contact [alice] 1 "Bob".data "123".data [] [] []).1 ≠ [alice] := by
  decide

/-- Overwriting position `i` with an element whose image under `f`
agrees with the one already there does not change the list's image
under `f`. -/
theorem map_set_of_eq {α β : Type _} (l : List α) (i : Nat) (h : i < l.length)
    (x : α) (f : α → β) (hf : f x = f (l.get ⟨i, h⟩)) :
    (l.set i x).map f = l.map f := by
  rw [List.map_set, hf]
  have hget : f (l.get ⟨i, h⟩) = (l.map f).get ⟨i, by simpa using h⟩ := by
    simp
  rw [hget]
  exact set_get_self _ _ _

/-- The email/address/category tail of the update never reports a bad
index or a phone error. -/
theorem updateEmailStep_snd (contacts : List Contact) (choice : Nat)
    (c2 : Contact) (ne na nc : List Char) :
    (updateEmailStep contacts choice c2 ne na nc).2 ≠ UpdateResult.notFound ∧
    (updateEmailStep contacts choice c2 ne na nc).2 ≠ UpdateResult.phoneError := by
  unfold updateEmailStep finishUpdate
  split
  · split <;> simp
  · simp

/-- If the email step aborts with a validation error, the collection
holds exactly the edits committed before it. -/
theorem updateEmailStep_emailError (contacts : List Contact) (choice : Nat)
    (c2 : Contact) (ne na nc : List Char) :
    (updateEmailStep contacts choice c2 ne na nc).2 = UpdateResult.emailError →
    (updateEmailStep contacts choice c2 ne na nc).1 =
      contacts.set (choice - 1) c2 := by
  unfold updateEmailStep finishUpdate
  split
  · split
    · intro _
      rfl
    · intro habs
      simp at habs
  · intro habs
    simp at habs

/-- C2 amended.  A validation failure aborts the update, but edits made
before the failing validation remain committed: on a phone validation
failure every field other than the name (phone, email, address,
category, creation date) of every record keeps its pre-update value; on
an email validation failure every field other than name and phone keeps
its pre-update value; an out-of-range index leaves the collection
unchanged. -/
theorem update_contact_abort_fields (contacts : List Contact) (choice : Nat)
    (nn np ne na nc : List Char) :
    ((update_contact contacts choice nn np ne na nc).2 = UpdateResult.notFound →
      (update_contact contacts choice nn np ne na nc).1 = contacts) ∧
    ((update_contact contacts choice nn np ne na nc).2 = UpdateResult.phoneError →
      (update_contact contacts choice nn np ne na nc).1.map Contact.phone =
        contacts.map Contact.phone ∧
      (update_contact contacts choice nn np ne na nc).1.map Contact.email =
        contacts.map Contact.email ∧
      (update_contact contacts choice nn np ne na nc).1.map Contact.address =
        contacts.map Contact.address ∧
      (update_contact contacts choice nn np ne na nc).1.map Contact.category =
        contacts.map Contact.category ∧
      (update_contact contacts choice nn np ne na nc).1.map Contact.created_date =
        contacts.map Contact.created_date) ∧
    ((update_contact contacts choice nn np ne na nc).2 = UpdateResult.emailError →
      (update_contact contacts choice nn np ne na nc).1.map Contact.email =
        contacts.map Contact.email ∧
      (update_contact contacts choice nn np ne na nc).1.map Contact.address =
        contacts.map Contact.address ∧
      (update_contact contacts choice nn np ne na nc).1.map Contact.category =
        contacts.map Contact.category ∧
      (update_contact contacts choice nn np ne na nc).1.map Contact.created_date =
        contacts.map Contact.created_date) := by
  by_cases h : 1 ≤ choice ∧ choice ≤ contacts.length
  · have h' : choice - 1 < contacts.length := by omega
    unfold update_contact
    rw [dif_pos h]
    by_cases hnp : np ≠ []
    · simp only [if_pos hnp]
      rcases hvp : validate_phone np with _ | fp
      · refine ⟨by simp, fun _ => ?_, by simp⟩
        refine ⟨?_, ?_, ?_, ?_, ?_⟩ <;>
          exact map_set_of_eq contacts (choice - 1) h' _ _ (by split <;> rfl)
      · constructor
        · intro habs
          exact absurd habs (updateEmailStep_snd contacts choice _ ne na nc).1
        constructor
        · intro habs
          exact absurd habs (updateEmailStep_snd contacts choice _ ne na nc).2
        · intro hee
          rw [updateEmailStep_emailError contacts choice _ ne na nc hee]
          refine ⟨?_, ?_, ?_, ?_⟩ <;>
            exact map_set_of_eq contacts (choice - 1) h' _ _ (by split <;> rfl)
    · simp only [if_neg hnp]
      constructor
      · intro habs
        exact absurd habs (updateEmailStep_snd contacts choice _ ne na nc).1
      constructor
      · intro habs
        exact absurd habs (updateEmailStep_snd contacts choice _ ne na nc).2
      · intro hee
        rw [updateEmailStep_emailError contacts choice _ ne na nc hee]
        refine ⟨?_, ?_, ?_, ?_⟩ <;>
          exact map_set_of_eq contacts (choice - 1) h' _ _ (by split <;> rfl)
  · unfold update_contact
    rw [dif_neg h]
    exact ⟨fun _ => rfl, by simp, by simp⟩

/-- Witness for C2's amended theorem: the aborted concrete update left
phone, email, address, category and creation date untouched. -/
theorem update_contact_abort_fields_witness :
    (update_contact [alice] 1 "Bob".data "123".data [] [] []).1.map Contact.phone =
      [alice].map Contact.phone ∧
    (update_contact [alice] 1 "Bob".data "123".data [] [] []).1.map Contact.email =
      [alice].map Contact.email ∧
    (update_contact [alice] 1 "Bob".data "123".data [] [] []).1.map Contact.address =
      [alice].map Contact.address ∧
    (update_contact [alice] 1 "Bob".data "123".data [] [] []).1.map Contact.category =
      [alice].map Contact.category ∧
    (update_contact [alice] 1 "Bob".data "123".data [] [] []).1.map Contact.created_date =
      [alice].map Contact.created_date :=
  (update_contact_abort_fields [alice] 1 "Bob".data "123".data [] [] []).2.1
    (by decide)

/-- The duplicate scan reports nothing exactly when no existing record
matches the new name case-insensitively or the new phone exactly. -/
theorem findDup_eq_none_iff (contacts : List Contact) (name fp : List Char) :
    findDup contacts name fp = none ↔
      ∀ c ∈ contacts, lowerStr c.name ≠ lowerStr name ∧ c.phone ≠ fp := by
  induction contacts with
  | nil => simp [findDup]
  | cons c cs ih =>
    by_cases h1 : lowerStr c.name = lowerStr name
    · simp [findDup, h1]
    · by_cases h2 : c.phone = fp
      · simp [findDup, h1, h2]
      · simp [findDup, h1, h2, ih]

/-- C4 counterexample.  The uniqueness invariant is not preserved by
every store operation: on the two-record store `[alice, bob]`, which
satisfies the invariant, updating the second record's name to `alice`
completes without error and leaves two records sharing a
case-insensitive name. -/
theorem store_uniqueness_cex :
    uniqueStore [alice, bob] ∧
    (update_contact [alice, bob] 2 "alice".data [] [] [] []).2 = UpdateResult.ok ∧
    ¬ uniqueStore (update_contact [alice, bob] 2 "alice".data [] [] [] []).1 := by
  decide

/-- Folding the import loop over any candidates preserves the
uniqueness invariant of the accumulated collection. -/
theorem import_fold_preserves_unique (now : List Char) :
    ∀ (cands : List ImportCand) (acc : List Contact × Nat × Nat),
      uniqueStore acc.1 → uniqueStore (cands.foldl (importStep now) acc).1 := by
  intro cands
  induction cands with
  | nil =>
    intro acc hacc
    exact hacc
  | cons cand rest ih =>
    intro acc hacc
    rw [List.foldl_cons]
    apply ih
    unfold importStep
    by_cases hc : (acc.1.any (fun e =>
        decide (lowerStr e.name = lowerStr cand.name) ||
        decide (e.phone = cand.phone))) = true
    · simpa [hc] using hacc
    · simp only [Bool.not_eq_true] at hc
      have hnomatch := List.any_eq_false.mp hc
      simp only [hc, Bool.false_eq_true, if_false]
      rw [uniqueStore, List.pairwise_append]
      refine ⟨hacc, List.pairwise_singleton _ _, ?_⟩
      intro a ha b hb
      rw [List.mem_singleton] at hb
      subst hb
      have := hnomatch a ha
      simp only [Bool.or_eq_true, decide_eq_true_eq, not_or] at this
      exact ⟨this.1, this.2⟩

/-- C4 amended.  Create, delete and import each preserve the store
uniqueness invariant (no two records sharing a case-insensitive name or
a stored phone string); update performs no duplicate check and can
violate it, and restore loads backup contents unchecked. -/
theorem create_delete_import_preserve_unique (contacts : List Contact)
    (h : uniqueStore contacts) :
    (∀ name phoneInput email address category now,
      uniqueStore (add_contact contacts name phoneInput email address category now).1) ∧
    (∀ choice saveOk, uniqueStore (delete_contact contacts choice saveOk)) ∧
    (∀ cands now, uniqueStore (import_contacts contacts cands now).1) := by
  refine ⟨?_, ?_, ?_⟩
  · intro name pi email address category now
    by_cases h1 : name = []
    · simpa [add_contact, h1] using h
    by_cases h2 : pi = []
    · simpa [add_contact, h1, h2] using h
    rcases hvp : validate_phone pi with _ | fp
    · simpa [add_contact, h1, h2, hvp] using h
    by_cases h3 : email ≠ [] ∧ validate_email email = false
    · simpa [add_contact, h1, h2, hvp, h3] using h
    rcases hfd : findDup contacts name fp with _ | err
    · have hnomatch := (findDup_eq_none_iff contacts name fp).mp hfd
      have hres : (add_contact contacts name pi email address category now).1 =
          contacts ++ [⟨name, fp, email, address,
            (if category = [] then "Other".data else category), now⟩] := by
        simp [add_contact, h1, h2, hvp, h3, hfd]
      rw [hres, uniqueStore, List.pairwise_append]
      refine ⟨h, List.pairwise_singleton _ _, ?_⟩
      intro a ha b hb
      rw [List.mem_singleton] at hb
      subst hb
      exact ⟨(hnomatch a ha).1, (hnomatch a ha).2⟩
    · simpa [add_contact, h1, h2, hvp, h3, hfd] using h
  · intro choice saveOk
    by_cases hch : 1 ≤ choice ∧ choice ≤ contacts.length
    · cases saveOk
      · rw [delete_save_failure_eq contacts choice hch]
        exact h
      · unfold delete_contact
        rw [dif_pos hch]
        simp only [if_true]
        exact List.Pairwise.sublist (List.eraseIdx_sublist _ _) h
    · unfold delete_contact
      rw [dif_neg hch]
      exact h
  · intro cands now
    exact import_fold_preserves_unique now cands (contacts, 0, 0) h

/-- Witness for C4's amended theorem: deleting from a concrete
invariant-satisfying store keeps the invariant. -/
theorem create_delete_import_preserve_unique_witness :
    uniqueStore (delete_contact [alice, bob] 1 true) :=
  (create_delete_import_preserve_unique [alice, bob] (by decide)).2.1 1 true

/-- The import loop, run over serialized full records all distinct from
the accumulated collection and pairwise distinct among themselves,
appends every record and skips none. -/
theorem import_fold_roundtrip (now : List Char) :
    ∀ (cs : List Contact) (acc : List Contact) (imp skip : Nat),
      (∀ c ∈ cs, ∀ e ∈ acc, lowerStr e.name ≠ lowerStr c.name ∧ e.phone ≠ c.phone) →
      cs.Pairwise (fun a b => lowerStr a.name ≠ lowerStr b.name ∧ a.phone ≠ b.phone) →
      List.foldl (importStep now) (acc, imp, skip) (cs.map toCand) =
        (acc ++ cs, imp + cs.length, skip) := by
  intro cs
  induction cs with
  | nil =>
    intro acc imp skip _ _
    simp
  | cons c rest ih =>
    intro acc imp skip hsep hpw
    rw [List.map_cons, List.foldl_cons]
    have hany : (acc.any (fun e =>
        decide (lowerStr e.name = lowerStr (toCand c).name) ||
        decide (e.phone = (toCand c).phone))) = false := by
      rw [List.any_eq_false]
      intro e he
      have hne := hsep c (by simp) e he
      simp [toCand, hne.1, hne.2]
    have hfix : fixCand now (toCand c) = c := by
      cases c
      rfl
    have hstep : importStep now (acc, imp, skip) (toCand c) =
        (acc ++ [c], imp + 1, skip) := by
      simp [importStep, hany, hfix]
    rw [hstep]
    have hpw' := List.pairwise_cons.mp hpw
    rw [ih (acc ++ [c]) (imp + 1) skip ?_ hpw'.2]
    · simp only [List.append_assoc, List.singleton_append, List.length_cons,
        Prod.mk.injEq, and_true, true_and]
      omega
    · intro c' hc' e he
      rcases List.mem_append.mp he with he' | he'
      · exact hsep c' (List.mem_cons_of_mem c hc') e he'
      · rw [List.mem_singleton] at he'
        subst he'
        exact hpw'.1 c' hc'

/-- C6.  Export/import round-trip: exporting a store satisfying the
data-model uniqueness invariant to the JSON form and importing that
file into an empty store reproduces the record set field-for-field,
with importedCount equal to the record count and skippedCount zero. -/
theorem export_import_roundtrip (contacts : List Contact) (now : List Char)
    (h : uniqueStore contacts) :
    import_contacts [] (export_contacts_json contacts) now =
      (contacts, contacts.length, 0) := by
  unfold import_contacts export_contacts_json
  have hbase : ∀ c ∈ contacts, ∀ e ∈ ([] : List Contact),
      lowerStr e.name ≠ lowerStr c.name ∧ e.phone ≠ c.phone := by
    intro c _ e he
    cases he
  simpa using import_fold_roundtrip now contacts [] 0 0 hbase h

/-- Witness for C6 at a concrete two-record store. -/
theorem export_import_roundtrip_witness :
    import_contacts [] (export_contacts_json [alice, bob]) "2024-03-03".data =
      ([alice, bob], 2, 0) := by
  simpa using export_import_roundtrip [alice, bob] "2024-03-03".data (by decide)

/-- A block of digit characters matches a block of `X` placeholders of
the same length, continuing into matching tails. -/
theorem matchesMask_digits (l : List Char) (hl : ∀ c ∈ l, c.isDigit = true) :
    ∀ (ps cs : List Char), matchesMask ps cs = true →
      matchesMask (List.replicate l.length 'X' ++ ps) (l ++ cs) = true := by
  induction l with
  | nil =>
    intro ps cs h
    simpa using h
  | cons c t ih =>
    intro ps cs h
    have hc : c.isDigit = true := hl c (by simp)
    have ht : ∀ x ∈ t, x.isDigit = true := fun x hx => hl x (List.mem_cons_of_mem c hx)
    simp only [List.length_cons, List.replicate_succ, List.cons_append, matchesMask,
      if_pos rfl, hc, Bool.true_and]
    exact ih ht ps cs h

/-- A block of digit characters matches a block of `X` placeholders of
the same length. -/
theorem matchesMask_digits_all (l : List Char) (hl : ∀ c ∈ l, c.isDigit = true) :
    matchesMask (List.replicate l.length 'X') l = true := by
  simpa using matchesMask_digits l hl [] [] rfl

/-- Length-indexed form of `matchesMask_digits`. -/
theorem matchesMask_digits_len (l : List Char) (n : Nat) (hn : l.length = n)
    (hl : ∀ c ∈ l, c.isDigit = true) (ps cs : List Char)
    (h : matchesMask ps cs = true) :
    matchesMask (List.replicate n 'X' ++ ps) (l ++ cs) = true := by
  subst hn
  exact matchesMask_digits l hl ps cs h

/-- Length-indexed form of `matchesMask_digits_all`. -/
theorem matchesMask_digits_all_len (l : List Char) (n : Nat) (hn : l.length = n)
    (hl : ∀ c ∈ l, c.isDigit = true) :
    matchesMask (List.replicate n 'X') l = true := by
  subst hn
  exact matchesMask_digits_all l hl

/-- A non-placeholder pattern character matches itself, continuing into
matching tails. -/
theorem matchesMask_cons_self (p : Char) (hp : ¬(p = 'X')) (ps cs : List Char)
    (h : matchesMask ps cs = true) : matchesMask (p :: ps) (p :: cs) = true := by
  simp [matchesMask, hp, h]

/-- The 10-digit branch of phone validation produces a string of the
exact shape `(XXX) XXX-XXXX` whose digits are the input's digits in
order. -/
theorem validate_phone_ten (p : List Char)
    (h10 : (p.filter Char.isDigit).length = 10) :
    ∃ s, validate_phone p = some s ∧
      matchesMask "(XXX) XXX-XXXX".data s = true ∧
      s.filter Char.isDigit = p.filter Char.isDigit := by
  set D := p.filter Char.isDigit with hD
  have hd : ∀ c ∈ D, c.isDigit = true := by
    intro c hc
    exact List.of_mem_filter hc
  have hres : validate_phone p = some ('(' :: D.take 3 ++ ')' :: ' ' ::
      ((D.drop 3).take 3 ++ '-' :: D.drop 6)) := by
    simp [validate_phone, ← hD, h10]
  refine ⟨_, hres, ?_, ?_⟩
  · have hmask : "(XXX) XXX-XXXX".data =
        '(' :: (List.replicate 3 'X' ++ ')' :: ' ' ::
          (List.replicate 3 'X' ++ '-' :: List.replicate 4 'X')) := by
      decide
    rw [hmask]
    have hl1 : (D.take 3).length = 3 := by
      simp [List.length_take, h10]
    have hl2 : ((D.drop 3).take 3).length = 3 := by
      simp [List.length_take, List.length_drop, h10]
    have hl3 : (D.drop 6).length = 4 := by
      simp [List.length_drop, h10]
    apply matchesMask_cons_self '(' (by decide)
    apply matchesMask_digits_len _ 3 hl1 (fun c hc => hd c (List.take_subset 3 D hc))
    apply matchesMask_cons_self ')' (by decide)
    apply matchesMask_cons_self ' ' (by decide)
    apply matchesMask_digits_len _ 3 hl2
      (fun c hc => hd c (List.drop_subset 3 D (List.take_subset 3 _ hc)))
    apply matchesMask_cons_self '-' (by decide)
    exact matchesMask_digits_all_len _ 4 hl3
      (fun c hc => hd c (List.drop_subset 6 D hc))
  · have hf1 : (D.take 3).filter Char.isDigit = D.take 3 :=
      List.filter_eq_self.mpr (fun c hc => hd c (List.take_subset 3 D hc))
    have hf2 : ((D.drop 3).take 3).filter Char.isDigit = (D.drop 3).take 3 :=
      List.filter_eq_self.mpr
        (fun c hc => hd c (List.drop_subset 3 D (List.take_subset 3 _ hc)))
    have hf3 : (D.drop 6).filter Char.isDigit = D.drop 6 :=
      List.filter_eq_self.mpr (fun c hc => hd c (List.drop_subset 6 D hc))
    have hsplit : D.take 3 ++ ((D.drop 3).take 3 ++ D.drop 6) = D := by
      have e1 : (D.drop 3).drop 3 = D.drop 6 := by
        rw [List.drop_drop]
      rw [← e1, List.take_append_drop, List.take_append_drop]
    simp [List.filter_cons, List.filter_append, hf1, hf2, hf3, hsplit,
      (by decide : '('.isDigit = false), (by decide : ')'.isDigit = false),
      (by decide : ' '.isDigit = false), (by decide : '-'.isDigit = false)]

/-- The 11-to-15-digit branch of phone validation produces the dashed
international form: a `+`, the excess digits beyond the last 10 as the
country-code block, then the last 10 digits in dashed groups of 3, 3
and 4; the digits of the output are the input's digits in order. -/
theorem validate_phone_intl (p : List Char)
    (h11 : 11 ≤ (p.filter Char.isDigit).length)
    (h15 : (p.filter Char.isDigit).length ≤ 15) :
    ∃ cc g1 g2 g3,
      validate_phone p =
        some ('+' :: cc ++ '-' :: (g1 ++ '-' :: (g2 ++ '-' :: g3))) ∧
      cc = (p.filter Char.isDigit).take ((p.filter Char.isDigit).length - 10) ∧
      (g1 ++ g2) ++ g3 =
        (p.filter Char.isDigit).drop ((p.filter Char.isDigit).length - 10) ∧
      g1.length = 3 ∧ g2.length = 3 ∧ g3.length = 4 ∧
      ('+' :: cc ++ '-' :: (g1 ++ '-' :: (g2 ++ '-' :: g3))).filter Char.isDigit =
        p.filter Char.isDigit := by
  set D := p.filter Char.isDigit with hD
  set n := D.length with hn
  have hd : ∀ c ∈ D, c.isDigit = true := by
    intro c hc
    exact List.of_mem_filter hc
  have hc1 : ¬(D.length < 10 ∨ 15 < D.length) := by omega
  have hc2 : ¬(D.length = 10) := by omega
  have hres : validate_phone p = some ('+' :: D.take (n - 10) ++ '-' ::
      ((D.drop (n - 10)).take 3 ++ '-' ::
        ((D.drop (n - 7)).take 3 ++ '-' :: D.drop (n - 4)))) := by
    simp [validate_phone, ← hD, hc1, hc2, ← hn]
  refine ⟨D.take (n - 10), (D.drop (n - 10)).take 3, (D.drop (n - 7)).take 3,
    D.drop (n - 4), hres, rfl, ?_, ?_, ?_, ?_, ?_⟩
  · have e1 : (D.drop (n - 10)).drop 3 = D.drop (n - 7) := by
      rw [List.drop_drop]
      congr 1
      omega
    have e2 : (D.drop (n - 7)).drop 3 = D.drop (n - 4) := by
      rw [List.drop_drop]
      congr 1
      omega
    rw [List.append_assoc, ← e2, List.take_append_drop, ← e1, List.take_append_drop]
  · simp [List.length_take, List.length_drop, ← hn]
    omega
  · simp [List.length_take, List.length_drop, ← hn]
    omega
  · simp [List.length_drop, ← hn]
    omega
  · have hsub1 : ∀ c ∈ D.take (n - 10), c ∈ D := fun c hc => List.take_subset _ D hc
    have hsub2 : ∀ c ∈ (D.drop (n - 10)).take 3, c ∈ D :=
      fun c hc => List.drop_subset _ D (List.take_subset 3 _ hc)
    have hsub3 : ∀ c ∈ (D.drop (n - 7)).take 3, c ∈ D :=
      fun c hc => List.drop_subset _ D (List.take_subset 3 _ hc)
    have hsub4 : ∀ c ∈ D.drop (n - 4), c ∈ D := fun c hc => List.drop_subset _ D hc
    have e1 : (D.drop (n - 10)).drop 3 = D.drop (n - 7) := by
      rw [List.drop_drop]
      congr 1
      omega
    have e2 : (D.drop (n - 7)).drop 3 = D.drop (n - 4) := by
      rw [List.drop_drop]
      congr 1
      omega
    have hsplit : D.take (n - 10) ++
        ((D.drop (n - 10)).take 3 ++ ((D.drop (n - 7)).take 3 ++ D.drop (n - 4))) = D := by
      rw [← e2, List.take_append_drop, ← e1, List.take_append_drop,
        List.take_append_drop]
    simp [List.filter_cons, List.filter_append,
      List.filter_eq_self.mpr (fun c hc => hd c (hsub1 c hc)),
      List.filter_eq_self.mpr (fun c hc => hd c (hsub2 c hc)),
      List.filter_eq_self.mpr (fun c hc => hd c (hsub3 c hc)),
      List.filter_eq_self.mpr (fun c hc => hd c (hsub4 c hc)), hsplit,
      (by decide : '+'.isDigit = false), (by decide : '-'.isDigit = false)]

/-- C1.  Phone normalization: validation fails exactly when the digit
count after stripping non-digits is below 10 or above 15; exactly 10
digits produce a string of exactly the pattern `(XXX) XXX-XXXX` built
from those digits; 11 to 15 digits produce a dashed international form
whose country-code prefix is the excess digits beyond the last 10,
followed by the last 10 digits grouped 3-3-4. -/
theorem validate_phone_spec (p : List Char) :
    (validate_phone p = none ↔
      ((p.filter Char.isDigit).length < 10 ∨ 15 < (p.filter Char.isDigit).length)) ∧
    ((p.filter Char.isDigit).length = 10 →
      ∃ s, validate_phone p = some s ∧
        matchesMask "(XXX) XXX-XXXX".data s = true ∧
        s.filter Char.isDigit = p.filter Char.isDigit) ∧
    (11 ≤ (p.filter Char.isDigit).length → (p.filter Char.isDigit).length ≤ 15 →
      ∃ cc g1 g2 g3,
        validate_phone p =
          some ('+' :: cc ++ '-' :: (g1 ++ '-' :: (g2 ++ '-' :: g3))) ∧
        cc = (p.filter Char.isDigit).take ((p.filter Char.isDigit).length - 10) ∧
        (g1 ++ g2) ++ g3 =
          (p.filter Char.isDigit).drop ((p.filter Char.isDigit).length - 10) ∧
        g1.length = 3 ∧ g2.length = 3 ∧ g3.length = 4 ∧
        ('+' :: cc ++ '-' :: (g1 ++ '-' :: (g2 ++ '-' :: g3))).filter Char.isDigit =
          p.filter Char.isDigit) := by
  refine ⟨?_, validate_phone_ten p, validate_phone_intl p⟩
  by_cases hcond : ((p.filter Char.isDigit).length < 10 ∨
      15 < (p.filter Char.isDigit).length)
  · simp [validate_phone, hcond]
  · by_cases h10 : (p.filter Char.isDigit).length = 10
    · simp [validate_phone, hcond, h10]
    · simp [validate_phone, hcond, h10]

/-- Witness for C1: the 10-digit input `555-123-4567` validates to a
string of the `(XXX) XXX-XXXX` pattern with the same digits. -/
theorem validate_phone_spec_witness :
    ∃ s, validate_phone "555-123-4567".data = some s ∧
      matchesMask "(XXX) XXX-XXXX".data s = true ∧
      s.filter Char.isDigit = "555-123-4567".data.filter Char.isDigit :=
  (validate_phone_spec "555-123-4567".data).2.1 (by decide)

end ContactBook
